import Mathlib

/-!
Shallow embedding of the local-cache action's cache engine
(`src/cache/utils.ts`, `src/cache/compression.ts`, `src/cache/localCache.ts`).

The filesystem is modelled as the list of paths that currently exist.
Environment variables, external-tool availability (`io.which`), writability
checks (`fs.accessSync`) and the exit status of the external `tar` process
are supplied by a read-only `Oracle`.  Every operation threads the
filesystem state explicitly and records a trace of observable events:
key-existence probes (`cacheExists`), directory creations (`fs.mkdirSync`)
and codec invocations (`compressWithZstd` / `decompressWithZstd`).
A thrown JavaScript exception is modelled as `Except.error`; the contents
extracted from an archive are opaque and are not added to the
path-existence set (the engine never consults them).
-/

namespace LocalCache

/-- Filesystem state: the list of paths that exist. -/
abbrev FS := List String

/-- `fs.existsSync`: membership test on the set of existing paths. -/
def fsExists : FS → String → Bool
  | [], _ => false
  | d :: fs, p => if p = d then true else fsExists fs p

/-- Observable events of a run. -/
inductive Event where
  | probe (key : String)
  | mkdir (dir : String)
  | compressInvoke (archive : String) (paths : List String) (level : Int)
  | decompressInvoke (archive : String) (target : String)
deriving Repr, DecidableEq

/-- Errors that can be raised (modelling a thrown exception). -/
inductive CacheErr where
  | mkdirFailed (dir : String)
deriving Repr, DecidableEq

/-- Read-only environment: `process.env`, tool availability, permissions,
and the exit status of the external tar/zstd processes. -/
structure Oracle where
  runnerToolCache : Option String
  home : Option String
  runnerTemp : Option String
  cwd : String
  tarOk : Bool
  zstdOk : Bool
  mkdirFails : String → Bool
  writable : String → Bool
  compressExit : String → List String → Int → Bool
  decompExit : String → String → Bool

/-- JavaScript `a || b` on an environment-variable value: `undefined`
and the empty string are falsy. -/
def jsOrElse (v : Option String) (d : String) : String :=
  match v with
  | some s => if s = "" then d else s
  | none => d

/-- Whether a string ends with a given suffix (computable by structural
recursion, used in place of the library's byte-position version). -/
def strEndsWith (s suff : String) : Bool :=
  List.isPrefixOf suff.data.reverse s.data.reverse

/-- Node `path.join` restricted to the shapes the engine uses. -/
def pathJoin (d f : String) : String :=
  if d = "" then f
  else if strEndsWith d "/" then d ++ f
  else d ++ "/" ++ f

/-- The directory string computed by `getCacheDir`:
`process.env.RUNNER_TOOL_CACHE || path.join(process.env.HOME || '/tmp', '.local-cache')`. -/
def cacheDirPath (o : Oracle) : String :=
  jsOrElse o.runnerToolCache (pathJoin (jsOrElse o.home "/tmp") ".local-cache")

/-- `getCacheDir` (utils.ts): compute the cache directory and create it
with `fs.mkdirSync(..., recursive)` when it does not exist; a failing
`mkdirSync` throws. -/
def getCacheDir (o : Oracle) (fs : FS) : Except CacheErr String × FS × List Event :=
  let dir := cacheDirPath o
  if fsExists fs dir then (.ok dir, fs, [])
  else if o.mkdirFails dir then (.error (.mkdirFailed dir), fs, [])
  else (.ok dir, dir :: fs, [.mkdir dir])

/-- Per-character sanitization of `key.replace` with the character class
complementary to letters and digits: characters outside `[A-Za-z0-9]`
become an underscore. -/
def sanChar (c : Char) : Char := if c.isAlphanum then c else '_'

/-- The sanitized key: every character of the key mapped through `sanChar`. -/
def sanitize (k : String) : String := ⟨k.data.map sanChar⟩

/-- The file name of a key's archive: sanitized key plus `.tar.zst`. -/
def cacheFileName (k : String) : String := sanitize k ++ ".tar.zst"

/-- The pure value of the archive path of a key. -/
def cacheFilePath (o : Oracle) (k : String) : String :=
  pathJoin (cacheDirPath o) (cacheFileName k)

/-- `getCacheFilePath` (utils.ts): join the cache directory (created on
demand by `getCacheDir`) with the sanitized key plus `.tar.zst`. -/
def getCacheFilePath (o : Oracle) (fs : FS) (k : String) :
    Except CacheErr String × FS × List Event :=
  match getCacheDir o fs with
  | (.error e, fs1, tr1) => (.error e, fs1, tr1)
  | (.ok dir, fs1, tr1) => (.ok (pathJoin dir (cacheFileName k)), fs1, tr1)

/-- `cacheExists` (utils.ts): existence check of the key's archive path.
The trace records the probe of the key. -/
def cacheExists (o : Oracle) (fs : FS) (k : String) :
    Except CacheErr Bool × FS × List Event :=
  match getCacheFilePath o fs k with
  | (.error e, fs1, tr1) => (.error e, fs1, tr1)
  | (.ok p, fs1, tr1) => (.ok (fsExists fs1 p), fs1, tr1 ++ [.probe k])

/-- Trim of a character list: surrounding whitespace removed. -/
def trimChars (l : List Char) : List Char :=
  ((l.dropWhile Char.isWhitespace).reverse.dropWhile Char.isWhitespace).reverse

/-- JavaScript `String.prototype.trim`, modelled on the character list. -/
def jsTrim (s : String) : String := ⟨trimChars s.data⟩

/-- Split a character list on a separator character, JavaScript
`String.prototype.split` style: `n` separators yield `n + 1` groups. -/
def splitOnChar (sep : Char) : List Char → List (List Char)
  | [] => [[]]
  | c :: rest =>
    match splitOnChar sep rest with
    | [] => [[]]
    | grp :: grps => if c = sep then [] :: grp :: grps else (c :: grp) :: grps

/-- JavaScript `raw.split` at the newline character. -/
def splitLines (s : String) : List String := (splitOnChar '\n' s.data).map String.mk

/-- `resolvePaths` (utils.ts): split on newlines, trim each line, drop
lines that are empty after trimming. -/
def resolvePaths (pathInput : String) : List String :=
  ((splitLines pathInput).map jsTrim).filter (fun s => s != "")

/-- Node `path.dirname`, restricted to the shapes the engine uses. -/
def dirname (p : String) : String :=
  let parts := (splitOnChar '/' p.data).map String.mk
  if parts.length ≤ 1 then "." else String.intercalate "/" parts.dropLast

/-- `compressWithZstd` (compression.ts): after checking tool availability,
create the archive's parent directory when missing (a failing `mkdirSync`
throws, caught by the function's own handler, yielding `false`), then run
tar; on success the archive file exists.  The invocation itself is traced. -/
def compressWithZstd (o : Oracle) (fs : FS) (archivePath : String)
    (paths : List String) (level : Int) : Bool × FS × List Event :=
  let inv : List Event := [.compressInvoke archivePath paths level]
  if o.tarOk = false then (false, fs, inv)
  else if o.zstdOk = false then (false, fs, inv)
  else
    let archiveDir := dirname archivePath
    if fsExists fs archiveDir then
      let ok := o.compressExit archivePath paths level
      (ok, if ok then archivePath :: fs else fs, inv)
    else if o.mkdirFails archiveDir then (false, fs, inv)
    else
      let ok := o.compressExit archivePath paths level
      (ok, if ok then archivePath :: archiveDir :: fs else archiveDir :: fs,
        inv ++ [.mkdir archiveDir])

/-- `decompressWithZstd` (compression.ts): after checking tool
availability, verify the archive exists, ensure the target directory
(falling back to the current directory when its creation fails, and to
the temp directory when it is not writable), then run tar.  Extracted
contents are opaque and not tracked.  The invocation itself is traced. -/
def decompressWithZstd (o : Oracle) (fs : FS) (archivePath targetDir : String) :
    Bool × FS × List Event :=
  let inv : List Event := [.decompressInvoke archivePath targetDir]
  if o.tarOk = false then (false, fs, inv)
  else if o.zstdOk = false then (false, fs, inv)
  else if fsExists fs archivePath = false then (false, fs, inv)
  else
    let step :=
      if fsExists fs targetDir then (targetDir, fs, ([] : List Event))
      else if o.mkdirFails targetDir then (o.cwd, fs, ([] : List Event))
      else (targetDir, targetDir :: fs, [Event.mkdir targetDir])
    let dir2 := if o.writable step.1 then step.1 else jsOrElse o.runnerTemp "/tmp"
    (o.decompExit archivePath dir2, step.2.1, inv ++ step.2.2)

/-- Result shape of `LocalCache.restore`. -/
structure RestoreResult where
  cacheHit : Bool
  restoredKey : Option String
deriving Repr, DecidableEq

/-- Result shape of `LocalCache.lookup`. -/
structure LookupResult where
  cacheHit : Bool
  matchedKey : Option String
deriving Repr, DecidableEq

/-- Body of `LocalCache.save` inside its try block. -/
def saveBody (o : Oracle) (fs : FS) (paths : List String) (key : String)
    (level : Int) : Except CacheErr Bool × FS × List Event :=
  let existingPaths := paths.filter (fun p => fsExists fs p)
  if existingPaths.isEmpty then (.ok false, fs, [])
  else
    match getCacheFilePath o fs key with
    | (.error e, fs1, tr1) => (.error e, fs1, tr1)
    | (.ok cachePath, fs1, tr1) =>
      match compressWithZstd o fs1 cachePath existingPaths level with
      | (ok, fs2, tr2) => (.ok ok, fs2, tr1 ++ tr2)

/-- `LocalCache.save`: the try/catch boundary converts an escaped
exception into `false`. -/
def save (o : Oracle) (fs : FS) (paths : List String) (key : String)
    (level : Int) : Bool × FS × List Event :=
  match saveBody o fs paths key level with
  | (.ok b, fs1, tr1) => (b, fs1, tr1)
  | (.error _, fs1, tr1) => (false, fs1, tr1)

/-- The fallback loop of `LocalCache.restore` over the restore keys. -/
def restoreTryKeys (o : Oracle) (fs : FS) (keys : List String)
    (targetDir : String) : Except CacheErr RestoreResult × FS × List Event :=
  match keys with
  | [] => (.ok ⟨false, none⟩, fs, [])
  | k :: ks =>
    match cacheExists o fs k with
    | (.error e, fs1, tr1) => (.error e, fs1, tr1)
    | (.ok b, fs1, tr1) =>
      if b then
        match getCacheFilePath o fs1 k with
        | (.error e, fs2, tr2) => (.error e, fs2, tr1 ++ tr2)
        | (.ok p, fs2, tr2) =>
          match decompressWithZstd o fs2 p targetDir with
          | (ok, fs3, tr3) =>
            if ok then (.ok ⟨false, some k⟩, fs3, tr1 ++ tr2 ++ tr3)
            else
              match restoreTryKeys o fs3 ks targetDir with
              | (r, fs4, tr4) => (r, fs4, tr1 ++ tr2 ++ tr3 ++ tr4)
      else
        match restoreTryKeys o fs1 ks targetDir with
        | (r, fs2, tr2) => (r, fs2, tr1 ++ tr2)

/-- Body of `LocalCache.restore` inside its try block.  The `paths`
argument is accepted (interface symmetry with `save`) but never used. -/
def restoreBody (o : Oracle) (fs : FS) (paths : List String)
    (primaryKey : String) (restoreKeys : List String) (targetDir : String) :
    Except CacheErr RestoreResult × FS × List Event :=
  match cacheExists o fs primaryKey with
  | (.error e, fs1, tr1) => (.error e, fs1, tr1)
  | (.ok b, fs1, tr1) =>
    if b then
      match getCacheFilePath o fs1 primaryKey with
      | (.error e, fs2, tr2) => (.error e, fs2, tr1 ++ tr2)
      | (.ok p, fs2, tr2) =>
        match decompressWithZstd o fs2 p targetDir with
        | (ok, fs3, tr3) =>
          if ok then (.ok ⟨true, some primaryKey⟩, fs3, tr1 ++ tr2 ++ tr3)
          else
            match restoreTryKeys o fs3 restoreKeys targetDir with
            | (r, fs4, tr4) => (r, fs4, tr1 ++ tr2 ++ tr3 ++ tr4)
    else
      match restoreTryKeys o fs1 restoreKeys targetDir with
      | (r, fs2, tr2) => (r, fs2, tr1 ++ tr2)

/-- `LocalCache.restore`: the try/catch boundary converts an escaped
exception into the miss result. -/
def restore (o : Oracle) (fs : FS) (paths : List String) (primaryKey : String)
    (restoreKeys : List String) (targetDir : String) :
    RestoreResult × FS × List Event :=
  match restoreBody o fs paths primaryKey restoreKeys targetDir with
  | (.ok r, fs1, tr1) => (r, fs1, tr1)
  | (.error _, fs1, tr1) => (⟨false, none⟩, fs1, tr1)

/-- The fallback loop of `LocalCache.lookup` over the restore keys. -/
def lookupTryKeys (o : Oracle) (fs : FS) (keys : List String) :
    Except CacheErr LookupResult × FS × List Event :=
  match keys with
  | [] => (.ok ⟨false, none⟩, fs, [])
  | k :: ks =>
    match cacheExists o fs k with
    | (.error e, fs1, tr1) => (.error e, fs1, tr1)
    | (.ok b, fs1, tr1) =>
      if b then (.ok ⟨false, some k⟩, fs1, tr1)
      else
        match lookupTryKeys o fs1 ks with
        | (r, fs2, tr2) => (r, fs2, tr1 ++ tr2)

/-- Body of `LocalCache.lookup` inside its try block. -/
def lookupBody (o : Oracle) (fs : FS) (primaryKey : String)
    (restoreKeys : List String) : Except CacheErr LookupResult × FS × List Event :=
  match cacheExists o fs primaryKey with
  | (.error e, fs1, tr1) => (.error e, fs1, tr1)
  | (.ok b, fs1, tr1) =>
    if b then (.ok ⟨true, some primaryKey⟩, fs1, tr1)
    else
      match lookupTryKeys o fs1 restoreKeys with
      | (r, fs2, tr2) => (r, fs2, tr1 ++ tr2)

/-- `LocalCache.lookup`: the try/catch boundary converts an escaped
exception into the miss result. -/
def lookup (o : Oracle) (fs : FS) (primaryKey : String)
    (restoreKeys : List String) : LookupResult × FS × List Event :=
  match lookupBody o fs primaryKey restoreKeys with
  | (.ok r, fs1, tr1) => (r, fs1, tr1)
  | (.error _, fs1, tr1) => (⟨false, none⟩, fs1, tr1)

/-- The cache directory inserted into the filesystem when absent:
the state `getCacheDir` leaves behind on success. -/
def ensureDir (o : Oracle) (fs : FS) : FS :=
  if fsExists fs (cacheDirPath o) then fs else cacheDirPath o :: fs

/-- The trace `getCacheDir` emits on success. -/
def ensureTrace (o : Oracle) (fs : FS) : List Event :=
  if fsExists fs (cacheDirPath o) then [] else [.mkdir (cacheDirPath o)]

/-- Pure existence of a key's archive in a filesystem state. -/
def keyExists (o : Oracle) (fs : FS) (k : String) : Bool :=
  fsExists fs (cacheFilePath o k)

/-- `CacheStore.exists` as the spec's §4.3 describes it: resolve the cache
directory (creating it when absent), then check the archive path. -/
def storeExists (o : Oracle) (fs : FS) (k : String) : Bool × FS :=
  (fsExists (ensureDir o fs) (cacheFilePath o k), ensureDir o fs)

/-- Transcription of the spec's §4.4 restore step 2: iterate the restore
keys in order and stop at the first key that both exists and decompresses
successfully, skipping a key whose archive exists but fails to decompress. -/
def restoreSpecTry (o : Oracle) (td : String) : List String → FS → RestoreResult × FS
  | [], fs => (⟨false, none⟩, fs)
  | k :: ks, fs =>
    if (storeExists o fs k).1 then
      match decompressWithZstd o (storeExists o fs k).2 (cacheFilePath o k) td with
      | (ok, fs2, _) =>
        if ok then (⟨false, some k⟩, fs2) else restoreSpecTry o td ks fs2
    else restoreSpecTry o td ks (storeExists o fs k).2

/-- Transcription of the spec's §4.4 restore: if the primary key's archive
exists and decompresses successfully return a hit immediately, otherwise
fall back to the restore keys; nothing succeeding yields a miss. -/
def restoreSpec (o : Oracle) (fs : FS) (pk : String) (rks : List String)
    (td : String) : RestoreResult × FS :=
  if (storeExists o fs pk).1 then
    match decompressWithZstd o (storeExists o fs pk).2 (cacheFilePath o pk) td with
    | (ok, fs2, _) =>
      if ok then (⟨true, some pk⟩, fs2) else restoreSpecTry o td rks fs2
  else restoreSpecTry o td rks (storeExists o fs pk).2

/-- The pure value `lookup` computes: exact match on the primary key,
otherwise the first restore key whose archive exists. -/
def lookupPure (o : Oracle) (fs : FS) (pk : String) (rks : List String) :
    LookupResult :=
  if keyExists o fs pk then ⟨true, some pk⟩
  else
    match rks.find? (fun k => keyExists o fs k) with
    | some k => ⟨false, some k⟩
    | none => ⟨false, none⟩

/-- The keys probed, in order, extracted from a trace. -/
def probedKeys (tr : List Event) : List String :=
  tr.filterMap fun e => match e with | .probe k => some k | _ => none

/-- The restore keys a scan probes: each key in order, stopping right
after the first whose archive exists. -/
def probeWalk (o : Oracle) (fs : FS) : List String → List String
  | [] => []
  | k :: ks => k :: (if keyExists o fs k then [] else probeWalk o fs ks)

/-- The keys `lookup` probes: the primary key, then the restore keys up to
and including the first that exists. -/
def expectedProbes (o : Oracle) (fs : FS) (pk : String) (rks : List String) :
    List String :=
  pk :: (if keyExists o fs pk then [] else probeWalk o fs rks)

/-- Whether an event is a codec invocation. -/
def isCodecEvent : Event → Bool
  | .compressInvoke _ _ _ => true
  | .decompressInvoke _ _ => true
  | _ => false

/-- A concrete benign environment for witnesses: tool cache at `/cache`,
tools available, no failures. -/
def oPlain : Oracle :=
  ⟨some "/cache", none, none, "/cwd", true, true,
    fun _ => false, fun _ => true, fun _ _ _ => true, fun _ _ => true⟩

/-- A concrete environment with neither RUNNER_TOOL_CACHE nor HOME set. -/
def oNoEnv : Oracle :=
  ⟨none, none, none, "/cwd", true, true,
    fun _ => false, fun _ => true, fun _ _ _ => true, fun _ _ => true⟩

/-- A concrete environment in which every `mkdirSync` throws. -/
def oMkdirFail : Oracle :=
  ⟨some "/cache", none, none, "/cwd", true, true,
    fun _ => true, fun _ => true, fun _ _ _ => true, fun _ _ => true⟩

/-! Helper lemmas. -/

theorem fsExists_cons (d p : String) (fs : FS) :
    fsExists (d :: fs) p = (if p = d then true else fsExists fs p) := rfl

theorem fsExists_cons_self (d : String) (fs : FS) :
    fsExists (d :: fs) d = true := by
  simp [fsExists_cons]

theorem string_eq_empty_of_length (f : String) (h : f.length = 0) : f = "" := by
  cases f with
  | mk d =>
    have hd : d = [] := List.length_eq_zero.mp h
    simp [hd]

theorem cacheFileName_length (k : String) :
    (cacheFileName k).length = (sanitize k).length + 8 := by
  have h8 : (".tar.zst" : String).length = 8 := rfl
  unfold cacheFileName
  rw [String.length_append, h8]

theorem cacheFileName_ne_empty (k : String) : cacheFileName k ≠ "" := by
  intro h
  have hL := congrArg String.length h
  rw [cacheFileName_length] at hL
  have h0 : ("" : String).length = 0 := rfl
  rw [h0] at hL
  omega

theorem pathJoin_ne_left (d f : String) (hf : f ≠ "") : pathJoin d f ≠ d := by
  have hlen : 0 < f.length := by
    rcases Nat.eq_zero_or_pos f.length with h0 | h0
    · exact absurd (string_eq_empty_of_length f h0) hf
    · exact h0
  unfold pathJoin
  intro hcontra
  by_cases hd : d = ""
  · rw [if_pos hd] at hcontra
    exact hf (hcontra.trans hd)
  · rw [if_neg hd] at hcontra
    by_cases he : strEndsWith d "/" = true
    · rw [if_pos he] at hcontra
      have hL := congrArg String.length hcontra
      rw [String.length_append] at hL
      omega
    · rw [if_neg he] at hcontra
      have hL := congrArg String.length hcontra
      rw [String.length_append, String.length_append] at hL
      omega

theorem cacheFilePath_ne_dir (o : Oracle) (k : String) :
    cacheFilePath o k ≠ cacheDirPath o :=
  pathJoin_ne_left (cacheDirPath o) (cacheFileName k) (cacheFileName_ne_empty k)

theorem fsExists_ensureDir_self (o : Oracle) (fs : FS) :
    fsExists (ensureDir o fs) (cacheDirPath o) = true := by
  unfold ensureDir
  by_cases h : fsExists fs (cacheDirPath o) = true
  · simp [h]
  · simp [h, fsExists_cons_self]

theorem fsExists_ensureDir_file (o : Oracle) (fs : FS) (k : String) :
    fsExists (ensureDir o fs) (cacheFilePath o k) = keyExists o fs k := by
  unfold ensureDir keyExists
  by_cases h : fsExists fs (cacheDirPath o) = true
  · simp [h]
  · simp [h, fsExists_cons, cacheFilePath_ne_dir o k]

theorem keyExists_ensureDir (o : Oracle) (fs : FS) (k : String) :
    keyExists o (ensureDir o fs) k = keyExists o fs k := by
  unfold keyExists at *
  exact fsExists_ensureDir_file o fs k

theorem ensureDir_idem (o : Oracle) (fs : FS) :
    ensureDir o (ensureDir o fs) = ensureDir o fs := by
  unfold ensureDir
  by_cases h : fsExists fs (cacheDirPath o) = true
  · simp [h]
  · simp [h, fsExists_cons_self]

theorem storeExists_fst (o : Oracle) (fs : FS) (k : String) :
    (storeExists o fs k).1 = keyExists o fs k :=
  fsExists_ensureDir_file o fs k

theorem getCacheDir_eq (o : Oracle) (fs : FS)
    (h : o.mkdirFails (cacheDirPath o) = false) :
    getCacheDir o fs = (.ok (cacheDirPath o), ensureDir o fs, ensureTrace o fs) := by
  unfold getCacheDir ensureDir ensureTrace
  by_cases hdir : fsExists fs (cacheDirPath o) = true
  · simp [hdir]
  · simp [hdir, h]

theorem getCacheDir_dirPresent (o : Oracle) (fs : FS)
    (hdir : fsExists fs (cacheDirPath o) = true) :
    getCacheDir o fs = (.ok (cacheDirPath o), fs, []) := by
  unfold getCacheDir
  simp [hdir]

theorem getCacheFilePath_eq (o : Oracle) (fs : FS) (k : String)
    (h : o.mkdirFails (cacheDirPath o) = false) :
    getCacheFilePath o fs k =
      (.ok (cacheFilePath o k), ensureDir o fs, ensureTrace o fs) := by
  unfold getCacheFilePath
  rw [getCacheDir_eq o fs h]
  rfl

theorem getCacheFilePath_dirPresent (o : Oracle) (fs : FS) (k : String)
    (hdir : fsExists fs (cacheDirPath o) = true) :
    getCacheFilePath o fs k = (.ok (cacheFilePath o k), fs, []) := by
  unfold getCacheFilePath
  rw [getCacheDir_dirPresent o fs hdir]
  rfl

theorem cacheExists_eq (o : Oracle) (fs : FS) (k : String)
    (h : o.mkdirFails (cacheDirPath o) = false) :
    cacheExists o fs k =
      (.ok (keyExists o fs k), ensureDir o fs, ensureTrace o fs ++ [.probe k]) := by
  unfold cacheExists
  rw [getCacheFilePath_eq o fs k h]
  simp [fsExists_ensureDir_file o fs k]

theorem cacheExists_dirPresent (o : Oracle) (fs : FS) (k : String)
    (hdir : fsExists fs (cacheDirPath o) = true) :
    cacheExists o fs k = (.ok (keyExists o fs k), fs, [.probe k]) := by
  unfold cacheExists
  rw [getCacheFilePath_dirPresent o fs k hdir]
  simp [keyExists]

theorem restoreTryKeys_eq_spec (o : Oracle) (td : String)
    (h : o.mkdirFails (cacheDirPath o) = false) :
    ∀ (keys : List String) (fs : FS),
      (restoreTryKeys o fs keys td).1 = .ok (restoreSpecTry o td keys fs).1 ∧
      (restoreTryKeys o fs keys td).2.1 = (restoreSpecTry o td keys fs).2 := by
  intro keys
  induction keys with
  | nil => intro fs; exact ⟨rfl, rfl⟩
  | cons k ks ih =>
    intro fs
    have hsf : (storeExists o fs k).1 = keyExists o fs k := storeExists_fst o fs k
    have hss : (storeExists o fs k).2 = ensureDir o fs := rfl
    have hgp := getCacheFilePath_dirPresent o (ensureDir o fs) k
      (fsExists_ensureDir_self o fs)
    cases hk : keyExists o fs k with
    | false =>
      have hrec := ih (ensureDir o fs)
      rcases hr : restoreTryKeys o (ensureDir o fs) ks td with ⟨r4, fs4, tr4⟩
      rw [hr] at hrec
      simp only [restoreTryKeys, restoreSpecTry, cacheExists_eq o fs k h, hk, hsf, hss,
        Bool.false_eq_true, if_false, hr] at hrec ⊢
      exact hrec
    | true =>
      rcases hdec : decompressWithZstd o (ensureDir o fs) (cacheFilePath o k) td
        with ⟨ok, fs3, tr3⟩
      cases ok with
      | false =>
        have hrec := ih fs3
        rcases hr : restoreTryKeys o fs3 ks td with ⟨r4, fs4, tr4⟩
        rw [hr] at hrec
        simp only [restoreTryKeys, restoreSpecTry, cacheExists_eq o fs k h, hk, hsf, hss,
          hgp, hdec, Bool.false_eq_true, if_true, if_false, hr] at hrec ⊢
        exact hrec
      | true =>
        simp only [restoreTryKeys, restoreSpecTry, cacheExists_eq o fs k h, hk, hsf, hss,
          hgp, hdec, if_true]
        exact ⟨trivial, trivial⟩

theorem restoreBody_eq_spec (o : Oracle) (fs : FS) (paths : List String)
    (pk : String) (rks : List String) (td : String)
    (h : o.mkdirFails (cacheDirPath o) = false) :
    (restoreBody o fs paths pk rks td).1 = .ok (restoreSpec o fs pk rks td).1 ∧
    (restoreBody o fs paths pk rks td).2.1 = (restoreSpec o fs pk rks td).2 := by
  have hsf : (storeExists o fs pk).1 = keyExists o fs pk := storeExists_fst o fs pk
  have hss : (storeExists o fs pk).2 = ensureDir o fs := rfl
  have hgp := getCacheFilePath_dirPresent o (ensureDir o fs) pk
    (fsExists_ensureDir_self o fs)
  cases hk : keyExists o fs pk with
  | false =>
    have hrec := restoreTryKeys_eq_spec o td h rks (ensureDir o fs)
    rcases hr : restoreTryKeys o (ensureDir o fs) rks td with ⟨r4, fs4, tr4⟩
    rw [hr] at hrec
    simp only [restoreBody, restoreSpec, cacheExists_eq o fs pk h, hk, hsf, hss,
      Bool.false_eq_true, if_false, hr] at hrec ⊢
    exact hrec
  | true =>
    rcases hdec : decompressWithZstd o (ensureDir o fs) (cacheFilePath o pk) td
      with ⟨ok, fs3, tr3⟩
    cases ok with
    | false =>
      have hrec := restoreTryKeys_eq_spec o td h rks fs3
      rcases hr : restoreTryKeys o fs3 rks td with ⟨r4, fs4, tr4⟩
      rw [hr] at hrec
      simp only [restoreBody, restoreSpec, cacheExists_eq o fs pk h, hk, hsf, hss,
        hgp, hdec, Bool.false_eq_true, if_true, if_false, hr] at hrec ⊢
      exact hrec
    | true =>
      simp only [restoreBody, restoreSpec, cacheExists_eq o fs pk h, hk, hsf, hss,
        hgp, hdec, if_true]
      exact ⟨trivial, trivial⟩

theorem restore_eq_spec (o : Oracle) (fs : FS) (paths : List String)
    (pk : String) (rks : List String) (td : String)
    (h : o.mkdirFails (cacheDirPath o) = false) :
    (restore o fs paths pk rks td).1 = (restoreSpec o fs pk rks td).1 ∧
    (restore o fs paths pk rks td).2.1 = (restoreSpec o fs pk rks td).2 := by
  have hb := restoreBody_eq_spec o fs paths pk rks td h
  rcases hbody : restoreBody o fs paths pk rks td with ⟨r, fs1, tr1⟩
  rw [hbody] at hb
  obtain ⟨hb1, hb2⟩ := hb
  simp only at hb1 hb2
  rw [hb1] at hbody
  simp only [restore, hbody]
  constructor
  · trivial
  · exact hb2

theorem restoreSpecTry_not_hit (o : Oracle) (td : String) :
    ∀ (keys : List String) (fs : FS),
      (restoreSpecTry o td keys fs).1.cacheHit = false := by
  intro keys
  induction keys with
  | nil => intro fs; rfl
  | cons k ks ih =>
    intro fs
    unfold restoreSpecTry
    cases hk : (storeExists o fs k).1 with
    | false => simp [hk, ih]
    | true =>
      rcases hdec : decompressWithZstd o (storeExists o fs k).2 (cacheFilePath o k) td
        with ⟨ok, fs2, tr2⟩
      cases ok with
      | false => simp [hk, hdec, ih]
      | true => simp [hk, hdec]

theorem restoreSpec_hit_iff (o : Oracle) (fs : FS) (pk : String)
    (rks : List String) (td : String) :
    (restoreSpec o fs pk rks td).1.cacheHit = true ↔
      (keyExists o fs pk = true ∧
        (decompressWithZstd o (ensureDir o fs) (cacheFilePath o pk) td).1 = true) := by
  have hss : (storeExists o fs pk).2 = ensureDir o fs := rfl
  unfold restoreSpec
  rw [storeExists_fst, hss]
  cases hk : keyExists o fs pk with
  | false => simp [hk, restoreSpecTry_not_hit]
  | true =>
    rcases hdec : decompressWithZstd o (ensureDir o fs) (cacheFilePath o pk) td
      with ⟨ok, fs2, tr2⟩
    cases ok with
    | false => simp [hdec, restoreSpecTry_not_hit]
    | true => simp [hdec]

theorem restoreSpec_hit_key (o : Oracle) (fs : FS) (pk : String)
    (rks : List String) (td : String) :
    (restoreSpec o fs pk rks td).1.cacheHit = true →
    (restoreSpec o fs pk rks td).1.restoredKey = some pk := by
  have hss : (storeExists o fs pk).2 = ensureDir o fs := rfl
  unfold restoreSpec
  rw [storeExists_fst, hss]
  cases hk : keyExists o fs pk with
  | false =>
    intro hcontra
    rw [if_neg (by simp)] at hcontra ⊢
    rw [restoreSpecTry_not_hit] at hcontra
    cases hcontra
  | true =>
    rcases hdec : decompressWithZstd o (ensureDir o fs) (cacheFilePath o pk) td
      with ⟨ok, fs2, tr2⟩
    cases ok with
    | false =>
      intro hcontra
      simp only [hdec, if_true, Bool.false_eq_true, if_false] at hcontra ⊢
      rw [restoreSpecTry_not_hit] at hcontra
      cases hcontra
    | true => intro _; simp [hdec]

theorem probedKeys_append (tr1 tr2 : List Event) :
    probedKeys (tr1 ++ tr2) = probedKeys tr1 ++ probedKeys tr2 := by
  unfold probedKeys
  exact List.filterMap_append tr1 tr2 _

theorem probedKeys_ensureTrace (o : Oracle) (fs : FS) :
    probedKeys (ensureTrace o fs) = [] := by
  unfold ensureTrace
  cases hdir : fsExists fs (cacheDirPath o) with
  | false => simp [probedKeys]
  | true => simp [probedKeys]

theorem probedKeys_map_probe (l : List String) :
    probedKeys (l.map Event.probe) = l := by
  induction l with
  | nil => rfl
  | cons k ks ih =>
    unfold probedKeys at ih ⊢
    simp only [List.map_cons, List.filterMap_cons]
    rw [ih]

theorem probedKeys_single (k : String) : probedKeys [Event.probe k] = [k] := rfl

theorem probedKeys_probe_cons (k : String) (tr : List Event) :
    probedKeys (Event.probe k :: tr) = k :: probedKeys tr := by
  unfold probedKeys
  simp [List.filterMap_cons]

theorem probedKeys_decompress (o : Oracle) (fs : FS) (a t : String) :
    probedKeys (decompressWithZstd o fs a t).2.2 = [] := by
  unfold decompressWithZstd
  repeat' split
  all_goals simp [probedKeys]

theorem keyExists_fun_ensureDir (o : Oracle) (fs : FS) :
    (fun k => keyExists o (ensureDir o fs) k) = (fun k => keyExists o fs k) := by
  funext k
  exact keyExists_ensureDir o fs k

theorem probeWalk_ensureDir (o : Oracle) (fs : FS) :
    ∀ keys : List String, probeWalk o (ensureDir o fs) keys = probeWalk o fs keys := by
  intro keys
  induction keys with
  | nil => rfl
  | cons k ks ih => unfold probeWalk; rw [keyExists_ensureDir, ih]

theorem lookupTryKeys_dirPresent (o : Oracle) (fs : FS)
    (hdir : fsExists fs (cacheDirPath o) = true) :
    ∀ keys : List String,
      lookupTryKeys o fs keys =
        (.ok (match keys.find? (fun k => keyExists o fs k) with
              | some k => (⟨false, some k⟩ : LookupResult)
              | none => ⟨false, none⟩),
          fs, (probeWalk o fs keys).map Event.probe) := by
  intro keys
  induction keys with
  | nil => rfl
  | cons k ks ih =>
    unfold lookupTryKeys
    rw [cacheExists_dirPresent o fs k hdir]
    cases hk : keyExists o fs k with
    | true => simp [probeWalk, hk]
    | false => simp [probeWalk, hk, ih]

theorem lookup_eq_full (o : Oracle) (fs : FS) (pk : String) (rks : List String)
    (h : o.mkdirFails (cacheDirPath o) = false) :
    lookup o fs pk rks =
      (lookupPure o fs pk rks, ensureDir o fs,
        ensureTrace o fs ++ (expectedProbes o fs pk rks).map Event.probe) := by
  unfold lookup lookupBody
  rw [cacheExists_eq o fs pk h]
  cases hk : keyExists o fs pk with
  | true => simp [lookupPure, expectedProbes, hk]
  | false =>
    have htk := lookupTryKeys_dirPresent o (ensureDir o fs) (fsExists_ensureDir_self o fs) rks
    rw [keyExists_fun_ensureDir o fs, probeWalk_ensureDir o fs rks] at htk
    cases hfind : rks.find? (fun k => keyExists o fs k) with
    | none =>
      rw [hfind] at htk
      simp [htk, lookupPure, expectedProbes, hk, hfind]
    | some k2 =>
      rw [hfind] at htk
      simp [htk, lookupPure, expectedProbes, hk, hfind]

theorem restore_hit_key (o : Oracle) (fs : FS) (paths : List String)
    (pk : String) (rks : List String) (td : String)
    (h : o.mkdirFails (cacheDirPath o) = false) :
    (restore o fs paths pk rks td).1.cacheHit = true →
    (restore o fs paths pk rks td).1.restoredKey = some pk := by
  intro hh
  have he := (restore_eq_spec o fs paths pk rks td h).1
  rw [he] at hh ⊢
  exact restoreSpec_hit_key o fs pk rks td hh

theorem restore_hit_probes (o : Oracle) (fs : FS) (paths : List String)
    (pk : String) (rks : List String) (td : String)
    (h : o.mkdirFails (cacheDirPath o) = false) :
    (restore o fs paths pk rks td).1.cacheHit = true →
    probedKeys (restore o fs paths pk rks td).2.2 = [pk] := by
  intro hh
  have he := (restore_eq_spec o fs paths pk rks td h).1
  rw [he] at hh
  obtain ⟨hk, hd⟩ := (restoreSpec_hit_iff o fs pk rks td).mp hh
  have hgp := getCacheFilePath_dirPresent o (ensureDir o fs) pk
    (fsExists_ensureDir_self o fs)
  have hpd := probedKeys_decompress o (ensureDir o fs) (cacheFilePath o pk) td
  rcases hdec : decompressWithZstd o (ensureDir o fs) (cacheFilePath o pk) td
    with ⟨ok, fs3, tr3⟩
  rw [hdec] at hd hpd
  simp only at hd hpd
  subst hd
  unfold restore restoreBody
  rw [cacheExists_eq o fs pk h]
  simp only [hk, if_true, hgp, hdec]
  simp [probedKeys_append, probedKeys_ensureTrace, hpd, probedKeys_single,
    probedKeys_probe_cons]

theorem lookupPure_hit_iff (o : Oracle) (fs : FS) (pk : String)
    (rks : List String) :
    (lookupPure o fs pk rks).cacheHit = true ↔ keyExists o fs pk = true := by
  unfold lookupPure
  cases hk : keyExists o fs pk with
  | true => simp [hk]
  | false =>
    cases hfind : rks.find? (fun k => keyExists o fs k) with
    | none => simp [hk, hfind]
    | some k2 => simp [hk, hfind]

theorem lookupPure_hit_key (o : Oracle) (fs : FS) (pk : String)
    (rks : List String) :
    (lookupPure o fs pk rks).cacheHit = true →
    (lookupPure o fs pk rks).matchedKey = some pk := by
  unfold lookupPure
  cases hk : keyExists o fs pk with
  | true => simp [hk]
  | false =>
    cases hfind : rks.find? (fun k => keyExists o fs k) with
    | none => simp [hk, hfind]
    | some k2 => simp [hk, hfind]

theorem getCacheDir_err (o : Oracle) (fs : FS)
    (hdir : fsExists fs (cacheDirPath o) = false)
    (hm : o.mkdirFails (cacheDirPath o) = true) :
    getCacheDir o fs = (.error (.mkdirFailed (cacheDirPath o)), fs, []) := by
  unfold getCacheDir
  simp [hdir, hm]

theorem cacheExists_err (o : Oracle) (fs : FS) (k : String)
    (hdir : fsExists fs (cacheDirPath o) = false)
    (hm : o.mkdirFails (cacheDirPath o) = true) :
    cacheExists o fs k = (.error (.mkdirFailed (cacheDirPath o)), fs, []) := by
  unfold cacheExists getCacheFilePath
  rw [getCacheDir_err o fs hdir hm]

theorem lookup_mkdirFail (o : Oracle) (fs : FS) (pk : String) (rks : List String)
    (hdir : fsExists fs (cacheDirPath o) = false)
    (hm : o.mkdirFails (cacheDirPath o) = true) :
    lookup o fs pk rks = (⟨false, none⟩, fs, []) := by
  unfold lookup lookupBody
  rw [cacheExists_err o fs pk hdir hm]

theorem lookup_dirPresent (o : Oracle) (fs : FS) (pk : String) (rks : List String)
    (hdir : fsExists fs (cacheDirPath o) = true) :
    lookup o fs pk rks =
      (lookupPure o fs pk rks, fs, (expectedProbes o fs pk rks).map Event.probe) := by
  unfold lookup lookupBody
  rw [cacheExists_dirPresent o fs pk hdir]
  cases hk : keyExists o fs pk with
  | true => simp [lookupPure, expectedProbes, hk]
  | false =>
    have htk := lookupTryKeys_dirPresent o fs hdir rks
    cases hfind : rks.find? (fun k => keyExists o fs k) with
    | none =>
      rw [hfind] at htk
      simp [htk, lookupPure, expectedProbes, hk, hfind]
    | some k2 =>
      rw [hfind] at htk
      simp [htk, lookupPure, expectedProbes, hk, hfind]

theorem isCodecEvent_ensureTrace (o : Oracle) (fs : FS) :
    ∀ e ∈ ensureTrace o fs, isCodecEvent e = false := by
  unfold ensureTrace
  cases hdir : fsExists fs (cacheDirPath o) with
  | false => intro e he; simp at he; rw [he]; rfl
  | true => intro e he; simp at he

theorem isCodecEvent_map_probe (l : List String) :
    ∀ e ∈ l.map Event.probe, isCodecEvent e = false := by
  intro e he
  rcases List.mem_map.mp he with ⟨k, _, rfl⟩
  rfl

theorem string_mk_ne_empty (l : List Char) (h : (⟨l⟩ : String) ≠ "") : l ≠ [] := by
  intro hc
  subst hc
  exact h rfl

theorem trimChars_has_nonWhitespace (l : List Char) (h : trimChars l ≠ []) :
    ∃ c ∈ trimChars l, c.isWhitespace = false := by
  unfold trimChars at h ⊢
  have h2 : (l.dropWhile Char.isWhitespace).reverse.dropWhile Char.isWhitespace ≠ [] := by
    intro hc
    rw [hc] at h
    exact h rfl
  exact ⟨_, List.mem_reverse.mpr (List.head_mem h2),
    List.head_dropWhile_not Char.isWhitespace _ h2⟩

/-! Claim theorems. -/

/-- Claim C1: `restore` returns `(cacheHit := true, restoredKey := primaryKey)`
exactly when the primary key's archive exists and decompresses successfully,
consulting no restore key in that case; otherwise it returns
`(cacheHit := false, restoredKey := k)` for the first restore key `k`, in
list order, whose archive both exists and decompresses successfully
(skipping a key whose archive exists but fails to decompress), and
`(cacheHit := false, restoredKey := none)` when no key succeeds — the
result equals what the spec's §4.4 algorithm (`restoreSpec`) computes. -/
theorem C1_restore_first_success (o : Oracle) (fs : FS) (paths : List String)
    (pk : String) (rks : List String) (td : String)
    (h : o.mkdirFails (cacheDirPath o) = false) :
    (restore o fs paths pk rks td).1 = (restoreSpec o fs pk rks td).1 ∧
    ((restore o fs paths pk rks td).1.cacheHit = true →
      probedKeys (restore o fs paths pk rks td).2.2 = [pk]) :=
  ⟨(restore_eq_spec o fs paths pk rks td h).1,
    restore_hit_probes o fs paths pk rks td h⟩

/-- Witness for C1 at a concrete environment in which the primary archive
exists and all decompressions succeed. -/
theorem C1_witness :
    (restore oPlain ["/cache", "/cache/k.tar.zst"] ["x"] "k" ["r"] "/out").1 =
      (restoreSpec oPlain ["/cache", "/cache/k.tar.zst"] "k" ["r"] "/out").1 ∧
    ((restore oPlain ["/cache", "/cache/k.tar.zst"] ["x"] "k" ["r"] "/out").1.cacheHit = true →
      probedKeys (restore oPlain ["/cache", "/cache/k.tar.zst"] ["x"] "k" ["r"] "/out").2.2 =
        ["k"]) :=
  C1_restore_first_success oPlain ["/cache", "/cache/k.tar.zst"] ["x"] "k" ["r"] "/out" rfl

/-- Claim C2: `lookup` returns a hit on the primary key when its archive
exists, otherwise the first restore key (in list order) whose archive
exists, otherwise a miss with no key; and it probes existence for the
primary key and then the restore keys in exactly that order, stopping
right after the first match. -/
theorem C2_lookup_first_match (o : Oracle) (fs : FS) (pk : String)
    (rks : List String) (h : o.mkdirFails (cacheDirPath o) = false) :
    (lookup o fs pk rks).1 = lookupPure o fs pk rks ∧
    probedKeys (lookup o fs pk rks).2.2 = expectedProbes o fs pk rks := by
  rw [lookup_eq_full o fs pk rks h]
  refine ⟨rfl, ?_⟩
  simp [probedKeys_append, probedKeys_ensureTrace, probedKeys_map_probe]

/-- Witness for C2 at the spec's own scenario: neither the primary key
nor the first restore key exists but the second restore key does. -/
theorem C2_witness :
    (lookup oPlain ["/cache", "/cache/r2.tar.zst"] "k" ["r1", "r2"]).1 =
      lookupPure oPlain ["/cache", "/cache/r2.tar.zst"] "k" ["r1", "r2"] ∧
    probedKeys (lookup oPlain ["/cache", "/cache/r2.tar.zst"] "k" ["r1", "r2"]).2.2 =
      expectedProbes oPlain ["/cache", "/cache/r2.tar.zst"] "k" ["r1", "r2"] :=
  C2_lookup_first_match oPlain ["/cache", "/cache/r2.tar.zst"] "k" ["r1", "r2"] rfl

/-- Counterexample to C3 as stated: on an empty filesystem, `lookup`
changes the filesystem — `getCacheDir`, reached through `cacheExists`,
creates the cache directory when it is absent. -/
theorem C3_counterexample :
    (lookup oPlain [] "k" []).2.1 ≠ ([] : FS) := by decide

/-- Claim C3 (amended): `lookup` never invokes the codec, and its only
possible filesystem mutation is creating the cache directory when it does
not yet exist; when the cache directory already exists, the filesystem is
left completely unchanged. -/
theorem C3_lookup_frame (o : Oracle) (fs : FS) (pk : String) (rks : List String) :
    (∀ e ∈ (lookup o fs pk rks).2.2, isCodecEvent e = false) ∧
    ((lookup o fs pk rks).2.1 = fs ∨
      (lookup o fs pk rks).2.1 = cacheDirPath o :: fs) ∧
    (fsExists fs (cacheDirPath o) = true → (lookup o fs pk rks).2.1 = fs) := by
  cases hdir : fsExists fs (cacheDirPath o) with
  | true =>
    rw [lookup_dirPresent o fs pk rks hdir]
    exact ⟨isCodecEvent_map_probe _, Or.inl rfl, fun _ => rfl⟩
  | false =>
    cases hm : o.mkdirFails (cacheDirPath o) with
    | true =>
      rw [lookup_mkdirFail o fs pk rks hdir hm]
      refine ⟨?_, Or.inl rfl, ?_⟩
      · intro e he
        simp at he
      · intro hcontra
        cases hcontra
    | false =>
      rw [lookup_eq_full o fs pk rks hm]
      refine ⟨?_, ?_, ?_⟩
      · intro e he
        rcases List.mem_append.mp he with h1 | h1
        · exact isCodecEvent_ensureTrace o fs e h1
        · exact isCodecEvent_map_probe _ e h1
      · right
        simp [ensureDir, hdir]
      · intro hcontra
        cases hcontra

/-- Witness for the amended C3: with the cache directory present,
`lookup` leaves the filesystem unchanged. -/
theorem C3_witness : (lookup oPlain ["/cache"] "k" []).2.1 = ["/cache"] :=
  (C3_lookup_frame oPlain ["/cache"] "k" []).2.2 rfl

/-- Claim C4: `cacheHit = true` holds if and only if the primary key
matched and the operation's action succeeded (for `restore`, its archive
existed and decompressed; for `lookup`, its archive existed); whenever the
returned key differs from the primary key, `cacheHit` is `false`. -/
theorem C4_cacheHit_iff_primary (o : Oracle) (fs : FS) (paths : List String)
    (pk : String) (rks : List String) (td : String)
    (h : o.mkdirFails (cacheDirPath o) = false) :
    ((restore o fs paths pk rks td).1.cacheHit = true ↔
      (keyExists o fs pk = true ∧
        (decompressWithZstd o (ensureDir o fs) (cacheFilePath o pk) td).1 = true)) ∧
    ((lookup o fs pk rks).1.cacheHit = true ↔ keyExists o fs pk = true) ∧
    (∀ k, (restore o fs paths pk rks td).1.restoredKey = some k → k ≠ pk →
      (restore o fs paths pk rks td).1.cacheHit = false) ∧
    (∀ k, (lookup o fs pk rks).1.matchedKey = some k → k ≠ pk →
      (lookup o fs pk rks).1.cacheHit = false) := by
  have hre := (restore_eq_spec o fs paths pk rks td h).1
  have hlu := lookup_eq_full o fs pk rks h
  refine ⟨?_, ?_, ?_, ?_⟩
  · rw [hre]
    exact restoreSpec_hit_iff o fs pk rks td
  · rw [hlu]
    exact lookupPure_hit_iff o fs pk rks
  · intro k hk hne
    cases hhit : (restore o fs paths pk rks td).1.cacheHit with
    | false => rfl
    | true =>
      have hkey := restore_hit_key o fs paths pk rks td h hhit
      rw [hk] at hkey
      injection hkey with h2
      exact absurd h2 hne
  · intro k hk hne
    cases hhit : (lookup o fs pk rks).1.cacheHit with
    | false => rfl
    | true =>
      rw [hlu] at hhit hk
      have hkey := lookupPure_hit_key o fs pk rks hhit
      rw [hk] at hkey
      injection hkey with h2
      exact absurd h2 hne

/-- Witness for C4: concrete instance of the `lookup` half of the
invariant, where the primary key's archive exists. -/
theorem C4_witness :
    (lookup oPlain ["/cache", "/cache/k.tar.zst"] "k" ["r"]).1.cacheHit = true ↔
      keyExists oPlain ["/cache", "/cache/k.tar.zst"] "k" = true :=
  (C4_cacheHit_iff_primary oPlain ["/cache", "/cache/k.tar.zst"] ["p"] "k" ["r"] "/out"
    rfl).2.1

/-- Claim C5: no raised exception escapes `save`, `restore` or `lookup`:
whenever the body inside the try block raises, the operation returns the
normal shape — `false` for `save`, a miss result with no key for
`restore` and `lookup`. -/
theorem C5_no_exception_escapes (o : Oracle) (fs : FS) (paths : List String)
    (key : String) (lvl : Int) (pk : String) (rks : List String) (td : String)
    (e1 e2 e3 : CacheErr) :
    ((saveBody o fs paths key lvl).1 = .error e1 →
      (save o fs paths key lvl).1 = false) ∧
    ((restoreBody o fs paths pk rks td).1 = .error e2 →
      (restore o fs paths pk rks td).1 = ⟨false, none⟩) ∧
    ((lookupBody o fs pk rks).1 = .error e3 →
      (lookup o fs pk rks).1 = ⟨false, none⟩) := by
  refine ⟨?_, ?_, ?_⟩
  · intro he
    rcases hb : saveBody o fs paths key lvl with ⟨x, fs1, tr1⟩
    rw [hb] at he
    simp only at he
    subst he
    simp [save, hb]
  · intro he
    rcases hb : restoreBody o fs paths pk rks td with ⟨x, fs1, tr1⟩
    rw [hb] at he
    simp only at he
    subst he
    simp [restore, hb]
  · intro he
    rcases hb : lookupBody o fs pk rks with ⟨x, fs1, tr1⟩
    rw [hb] at he
    simp only at he
    subst he
    simp [lookup, hb]

/-- Witness for C5 in an environment in which `mkdirSync` always throws:
every operation still returns its normal shape. -/
theorem C5_witness :
    (save oMkdirFail ["p"] ["p"] "k" 3).1 = false ∧
    (restore oMkdirFail ["p"] ["p"] "k" [] "/out").1 = ⟨false, none⟩ ∧
    (lookup oMkdirFail ["p"] "k" []).1 = ⟨false, none⟩ := by
  have hc := C5_no_exception_escapes oMkdirFail ["p"] ["p"] "k" 3 "k" [] "/out"
    (.mkdirFailed "/cache") (.mkdirFailed "/cache") (.mkdirFailed "/cache")
  exact ⟨hc.1 rfl, hc.2.1 rfl, hc.2.2 rfl⟩

/-- Claim C6: `save` with no existing input path returns `false` with no
codec invocation and no filesystem change; with at least one existing
path it returns exactly the codec's success boolean, the codec being
applied to the existing paths only. -/
theorem C6_save_empty_or_codec (o : Oracle) (fs : FS) (paths : List String)
    (key : String) (lvl : Int) :
    (paths.filter (fun p => fsExists fs p) = [] →
      save o fs paths key lvl = (false, fs, [])) ∧
    ((paths.filter (fun p => fsExists fs p)).isEmpty = false →
      o.mkdirFails (cacheDirPath o) = false →
      (save o fs paths key lvl).1 =
        (compressWithZstd o (ensureDir o fs) (cacheFilePath o key)
          (paths.filter (fun p => fsExists fs p)) lvl).1) := by
  constructor
  · intro hfil
    simp [save, saveBody, hfil]
  · intro hne h
    rcases hcz : compressWithZstd o (ensureDir o fs) (cacheFilePath o key)
      (paths.filter (fun p => fsExists fs p)) lvl with ⟨ok, fs2, tr2⟩
    simp [save, saveBody, hne, getCacheFilePath_eq o fs key h, hcz]

/-- Witness for C6: a save with no existing path is a no-op returning
`false`, and a save with one existing path returns the codec's boolean. -/
theorem C6_witness :
    save oPlain [] ["nope"] "k" 3 = (false, [], []) ∧
    (save oPlain ["p"] ["p"] "k" 3).1 =
      (compressWithZstd oPlain (ensureDir oPlain ["p"]) (cacheFilePath oPlain "k")
        (["p"].filter (fun p => fsExists ["p"] p)) 3).1 := by
  have h1 := (C6_save_empty_or_codec oPlain [] ["nope"] "k" 3).1 (by decide)
  have h2 := (C6_save_empty_or_codec oPlain ["p"] ["p"] "k" 3).2 (by decide) rfl
  exact ⟨h1, h2⟩

/-- Claim C7: sanitization is deterministic and total, maps every
character outside the alphanumeric class to an underscore and leaves
alphanumeric characters unchanged, preserves length and character
ordering, produces only alphanumeric characters and underscores, and the
archive path is the cache directory joined with the sanitized key
followed by the `.tar.zst` suffix. -/
theorem C7_sanitize_contract (k : String) (o : Oracle) (fs : FS) :
    (sanitize k).data = k.data.map sanChar ∧
    (sanitize k).length = k.length ∧
    (∀ c : Char, c.isAlphanum = true → sanChar c = c) ∧
    (∀ c : Char, c.isAlphanum = false → sanChar c = '_') ∧
    (∀ c ∈ (sanitize k).data, c.isAlphanum = true ∨ c = '_') ∧
    (o.mkdirFails (cacheDirPath o) = false →
      (getCacheFilePath o fs k).1 =
        .ok (pathJoin (cacheDirPath o) (sanitize k ++ ".tar.zst"))) := by
  refine ⟨rfl, ?_, ?_, ?_, ?_, ?_⟩
  · show (k.data.map sanChar).length = k.data.length
    rw [List.length_map]
  · intro c hc
    unfold sanChar
    simp [hc]
  · intro c hc
    unfold sanChar
    simp [hc]
  · intro c hc
    rcases List.mem_map.mp hc with ⟨a, _, rfl⟩
    unfold sanChar
    cases ha : a.isAlphanum with
    | true =>
      left
      simp [ha]
    | false =>
      right
      simp [ha]
  · intro h
    rw [getCacheFilePath_eq o fs k h]
    rfl

/-- Witness for C7 at a concrete key containing a non-alphanumeric
character. -/
theorem C7_witness :
    (sanitize "a-b").data = "a-b".data.map sanChar ∧
    (getCacheFilePath oPlain [] "a-b").1 =
      .ok (pathJoin (cacheDirPath oPlain) (sanitize "a-b" ++ ".tar.zst")) := by
  have hc := C7_sanitize_contract "a-b" oPlain []
  exact ⟨hc.1, hc.2.2.2.2.2 rfl⟩

/-- Claim C8: `resolvePaths` splits on newlines, trims each line, discards
lines empty after trimming, returns no empty or whitespace-only entry,
keeps surviving entries in order (it is a sublist of the trimmed lines),
and drops no trimmed nonempty line. -/
theorem C8_resolvePaths_contract (s : String) :
    (∀ e ∈ resolvePaths s, e ≠ "" ∧ ∃ c ∈ e.data, c.isWhitespace = false) ∧
    (resolvePaths s).Sublist ((splitLines s).map jsTrim) ∧
    (∀ line ∈ splitLines s, jsTrim line ≠ "" → jsTrim line ∈ resolvePaths s) := by
  refine ⟨?_, ?_, ?_⟩
  · intro e he
    have hm := List.mem_filter.mp he
    have hne : e ≠ "" := by
      have hb := hm.2
      simp at hb
      exact hb
    refine ⟨hne, ?_⟩
    rcases List.mem_map.mp hm.1 with ⟨line, _, rfl⟩
    have hd : trimChars line.data ≠ [] := string_mk_ne_empty _ hne
    exact trimChars_has_nonWhitespace line.data hd
  · exact List.filter_sublist _
  · intro line hline hne
    refine List.mem_filter.mpr ⟨List.mem_map_of_mem jsTrim hline, ?_⟩
    simp [hne]

/-- Witness for C8 on a concrete blob with surrounding whitespace and a
whitespace-only line. -/
theorem C8_witness :
    (("a" : String) ≠ "" ∧ ∃ c ∈ ("a" : String).data, c.isWhitespace = false) ∧
    jsTrim "b" ∈ resolvePaths " a \n   \nb" := by
  have hc := C8_resolvePaths_contract " a \n   \nb"
  exact ⟨hc.1 "a" (by decide), hc.2.2 "b" (by decide) (by decide)⟩

/-- Claim C9: the `paths` argument of `restore` has no influence — two
calls differing only in `paths` return the same result, final filesystem
and trace (hence the same existence checks and codec invocations). -/
theorem C9_restore_ignores_paths (o : Oracle) (fs : FS) (pk : String)
    (rks : List String) (td : String) (paths1 paths2 : List String) :
    restore o fs paths1 pk rks td = restore o fs paths2 pk rks td := rfl

/-- Claim C10: with RUNNER_TOOL_CACHE and HOME both unset, the cache
directory resolves to `/tmp/.local-cache` (`/tmp` substituting the
missing home directory), and it is created when absent. -/
theorem C10_cacheDir_defaults (o : Oracle) (fs : FS)
    (h1 : o.runnerToolCache = none) (h2 : o.home = none) :
    cacheDirPath o = "/tmp/.local-cache" ∧
    (fsExists fs "/tmp/.local-cache" = false →
      o.mkdirFails "/tmp/.local-cache" = false →
      getCacheDir o fs =
        (.ok "/tmp/.local-cache", "/tmp/.local-cache" :: fs,
          [.mkdir "/tmp/.local-cache"])) := by
  have hdir : cacheDirPath o = "/tmp/.local-cache" := by
    unfold cacheDirPath jsOrElse
    rw [h1, h2]
    decide
  refine ⟨hdir, ?_⟩
  intro hfs hm
  unfold getCacheDir
  simp [hdir, hfs, hm]

/-- Witness for C10 at a concrete environment with no RUNNER_TOOL_CACHE
and no HOME. -/
theorem C10_witness :
    cacheDirPath oNoEnv = "/tmp/.local-cache" ∧
    getCacheDir oNoEnv [] =
      (.ok "/tmp/.local-cache", ["/tmp/.local-cache"], [.mkdir "/tmp/.local-cache"]) := by
  have hc := C10_cacheDir_defaults oNoEnv [] rfl rfl
  exact ⟨hc.1, hc.2 rfl rfl⟩

end LocalCache
